import Mathlib

/-!
Verification development for the OpusFilter classifier training module
(`opusfilter/classifier.py`).

The module is shallowly embedded:

* A pandas `DataFrame` of numeric score columns becomes an association list
  from column names to columns of rationals (Python dicts and pandas frames
  preserve insertion order, which association lists model directly).
* The mutable dictionaries `cutoffs` and `discards` of `find_best_model`
  become association lists threaded through an explicit state record.
* The external black-box services (sklearn model fitting, prediction, and
  `roc_auc_score`) are abstracted as oracle parameters, exactly as the
  specification designates them external collaborators.
* Machine floats are modelled by exact rationals; `math.log` is `Real.log`.
* Python exceptions (`AttributeError` for a missing `dev_data` attribute,
  `NameError` for the unbound local `labels`) become `Except String` errors.
-/

/-! ## Association-list primitives (Python dict / DataFrame column access) -/

/-- A DataFrame column: the list of the rational score values of the rows. -/
abbrev Col := List ℚ

/-- A pandas DataFrame of scores: ordered named numeric columns. -/
abbrev DataFrame := List (String × Col)

/-- The `discards` dictionary: feature name to discard fraction. -/
abbrev DiscardMap := List (String × ℚ)

/-- The live `cutoffs` dictionary of `find_best_model`: values start as
`None` and in the live dictionary are never overwritten, only popped. -/
abbrev CutoffMap := List (String × Option ℚ)

/-- A fully assigned cutoff dictionary, as produced by `set_cutoffs`. -/
abbrev CutoffVals := List (String × ℚ)

/-- Ordered key list of an association list (Python `d.keys()`). -/
def keysOf : List (String × α) → List String
  | [] => []
  | p :: ps => p.1 :: keysOf ps

/-- Dictionary lookup with a default (`d[k]`; the default is only returned
in situations where Python would raise `KeyError`, which the theorems below
exclude by hypothesis or by construction of the runs). -/
def lookupD : List (String × α) → String → α → α
  | [], _, dflt => dflt
  | p :: ps, k, dflt => if p.1 = k then p.2 else lookupD ps k dflt

/-- Remove a key (`d.pop(k)`, result dictionary; Python also returns the
removed value, which the source always discards). -/
def popKey : List (String × α) → String → List (String × α)
  | [], _ => []
  | p :: ps, k => if p.1 = k then popKey ps k else p :: popKey ps k

/-- Assign an existing key in place (`d[k] = v`); Python dict assignment to
an existing key keeps its position and the source only ever assigns keys
that are present. -/
def setKey : List (String × α) → String → α → List (String × α)
  | [], _, _ => []
  | p :: ps, k, v => if p.1 = k then (k, v) :: setKey ps k v else p :: setKey ps k v

/-- Column of a DataFrame (`df[key]`). -/
def getColD (df : DataFrame) (k : String) : Col := lookupD df k []

/-- Row count of a DataFrame (`len(df.index)`): length of its columns
(all columns of a loaded frame have equal length). -/
def nrows (df : DataFrame) : ℕ :=
  match df with
  | [] => 0
  | c :: _ => c.2.length

/-- Entry of one column at one row index (`df[key][i]`). -/
def colEntry (df : DataFrame) (k : String) (i : ℕ) : ℚ := (getColD df k).getD i 0

/-! ## Substring test (Python `'pat' in key`) -/

/-- Does the character list start with the given pattern? -/
def charsStartWith : List Char → List Char → Bool
  | _, [] => true
  | [], _ :: _ => false
  | a :: as, b :: bs => a == b && charsStartWith as bs

/-- Does the character list contain the pattern as a contiguous run? -/
def charsContain : List Char → List Char → Bool
  | [], pat => pat.isEmpty
  | s@(_ :: rest), pat => charsStartWith s pat || charsContain rest pat

/-- Python substring membership `pat in s`. -/
def strContains (s pat : String) : Bool := charsContain s.toList pat.toList

/-- Direction policy of a feature: `True` for the "high score means reject"
orientation, decided by substring match exactly as in the source
(`'CrossEntropyFilter' in key or 'WordAlign' in key`). -/
def rejectHigh (key : String) : Bool :=
  strContains key "CrossEntropyFilter" || strContains key "WordAlign"

/-! ## Quantile (pandas `Series.quantile`, linear interpolation) -/

/-- Insert into a sorted list of rationals. -/
def insertQ (x : ℚ) : List ℚ → List ℚ
  | [] => [x]
  | y :: ys => if x ≤ y then x :: y :: ys else y :: insertQ x ys

/-- Insertion sort of the column values. -/
def sortQ : List ℚ → List ℚ
  | [] => []
  | x :: xs => insertQ x (sortQ xs)

/-- Pandas linear-interpolation quantile of a column: with sorted values
`s` of length `n`, position `h = q * (n - 1)`, the result interpolates
between `s[floor h]` and `s[floor h + 1]`.  Out-of-range `q` raises in
pandas and the empty column gives NaN; both lie outside every run and
hypothesis below, and here return a junk value. -/
def quantile (xs : Col) (q : ℚ) : ℚ :=
  let s := sortQ xs
  let n := s.length
  if n = 0 then 0
  else
    let h : ℚ := q * ((n : ℚ) - 1)
    let i : ℕ := (Int.floor h).toNat
    let lo := s.getD i 0
    let hi := s.getD (i + 1) lo
    lo + (h - (i : ℚ)) * (hi - lo)

/-- Python `round(x, 2)`: round to two decimal places.  (Python uses
round-half-even on binary floats; no value in this development ever sits
exactly on a tie, so round-half-up over ℚ agrees with the source on all
inputs that occur.) -/
def round2 (q : ℚ) : ℚ := (round (q * 100) : ℤ) / 100

/-! ## `set_cutoffs` and `add_labels` -/

/-- The body of `TrainClassifier.set_cutoffs`: for every key of the cutoff
dictionary, assign the `(1 - discards[key])` quantile of the training column
for "high means reject" features and the `discards[key]` quantile otherwise.
Every key is overwritten, so the result carries plain rational values. -/
def set_cutoffs (df : DataFrame) (ds : DiscardMap) : CutoffMap → CutoffVals
  | [] => []
  | p :: ps =>
    (p.1,
      if rejectHigh p.1 then quantile (getColD df p.1) (1 - lookupD ds p.1 0)
      else quantile (getColD df p.1) (lookupD ds p.1 0)) :: set_cutoffs df ds ps

/-- One feature gate of `add_labels`: the gate fails (drives the label to 0)
when the row's score strictly exceeds the cutoff for "high means reject"
features, and when it is strictly below the cutoff otherwise. -/
def gateFails (df : DataFrame) (i : ℕ) (p : String × ℚ) : Bool :=
  if rejectHigh p.1 then decide (p.2 < colEntry df p.1 i)
  else decide (colEntry df p.1 i < p.2)

/-- The inner loop of `add_labels` for one row: the label starts at 1 and
each failing feature gate overwrites it with 0. -/
def rowLabel (df : DataFrame) (cs : CutoffVals) (i : ℕ) : ℕ :=
  cs.foldl
    (fun label p =>
      if rejectHigh p.1 then (if p.2 < colEntry df p.1 i then 0 else label)
      else (if colEntry df p.1 i < p.2 then 0 else label))
    1

/-- The label list computed by `add_labels` over all rows of the table. -/
def addLabelsCore (df : DataFrame) (cs : CutoffVals) : List ℕ :=
  (List.range (nrows df)).map (rowLabel df cs)

/-! ## TrainClassifier state and the external sklearn model -/

/-- Observable behaviour of a fitted sklearn linear model: point
predictions, two-class probability columns, and accuracy score.  Fitting
itself is an external black box and appears as an oracle below. -/
structure SkModel where
  predict : DataFrame → List ℚ
  predictProba : DataFrame → List (ℚ × ℚ)
  score : DataFrame → Col → ℚ

/-- A fitted model with its two probability columns exchanged; used to state
the orientation-invariance of the ROC AUC criterion. -/
def swapProba (m : SkModel) : SkModel :=
  { m with predictProba := fun d => (m.predictProba d).map Prod.swap }

/-- The fields of a `TrainClassifier` instance.  `dev_data = none` models
the state in which the attribute was never created because no dev-scores
file was given (`dev_labels` likewise); `labels_train = none` models the
`labels_train` attribute not existing before the first `add_labels` call. -/
structure TrainClassifier where
  df_training_data : DataFrame
  dev_data : Option DataFrame
  dev_labels : Option Col
  labels_train : Option (List ℕ)
  discard_estimate : ℚ
deriving DecidableEq

/-- `TrainClassifier.__init__`: load the training scores, default the
discard estimate to 0.1, and, when dev scores are given, pop their `label`
column into `dev_labels`.  (A dev file without a `label` column raises
`KeyError` in the source; that corner is modelled as `dev_labels = none`.) -/
def TrainClassifier.init (trainDf : DataFrame) (devDf : Option DataFrame) (de : Option ℚ) : TrainClassifier :=
  { df_training_data := trainDf
    dev_data := devDf.map (fun d => popKey d "label")
    dev_labels := devDf.bind (fun d =>
      match lookupD d "label" [] with
      | c => if "label" ∈ keysOf d then some c else none)
    labels_train := none
    discard_estimate := de.getD (1 / 10) }

/-- `TrainClassifier.add_labels`: compute the label list from the cutoffs,
store it in the `labels_train` attribute, and return it. -/
def TrainClassifier.add_labels (st : TrainClassifier) (training_data : DataFrame) (cutoffs : CutoffVals) :
    TrainClassifier × List ℕ :=
  ({ st with labels_train := some (addLabelsCore training_data cutoffs) },
   addLabelsCore training_data cutoffs)

/-! ## The selection criteria (`get_sse`, `get_aic`, `get_bic`, `get_roc_auc`)

`labels_train` is the `self.labels_train` attribute at call time; the
`labels` argument of `get_sse` is accepted and ignored exactly as in the
source, which computes the residuals against `self.labels_train` instead. -/

/-- `TrainClassifier.get_sse`: residual sum of squares between the stored
`labels_train` attribute and the model's point predictions on
`training_data`, plus the constant 0.01. -/
def get_sse (labels_train : Option (List ℕ)) (model : SkModel)
    (training_data : DataFrame) (labels : List ℕ) : ℚ :=
  let y_hat := model.predict training_data
  let resid := List.zipWith (fun (l : ℕ) (p : ℚ) => (l : ℚ) - p) (labels_train.getD []) y_hat
  (resid.map (fun r => r ^ 2)).sum + 1 / 100

/-- `TrainClassifier.get_aic`: `2 k - 2 ln(SSE)` with `k` the number of
columns of the training snapshot. -/
noncomputable def get_aic (labels_train : Option (List ℕ)) (model : SkModel)
    (training_data : DataFrame) (labels : List ℕ) : ℝ :=
  2 * (training_data.length : ℝ) -
    2 * Real.log ((get_sse labels_train model training_data labels : ℚ) : ℝ)

/-- `TrainClassifier.get_bic`: `ln(n) k - 2 ln(SSE)` with `n` the row count
and `k` the column count of the training snapshot. -/
noncomputable def get_bic (labels_train : Option (List ℕ)) (model : SkModel)
    (training_data : DataFrame) (labels : List ℕ) : ℝ :=
  Real.log ((nrows training_data : ℕ) : ℝ) * (training_data.length : ℝ) -
    2 * Real.log ((get_sse labels_train model training_data labels : ℚ) : ℝ)

/-- `TrainClassifier.get_roc_auc`: the larger of the two ROC AUC values of
the model's class-0 and class-1 probability columns against the stored dev
labels.  `rocAucScore` abstracts `sklearn.metrics.roc_auc_score` (whose
values are rational: normalised rank sums).  The source also computes
`model.classifier.predict` and `model.classifier.score` on the dev data and
discards both results; these pure, unused calls are not modelled. -/
def get_roc_auc (rocAucScore : Col → List ℚ → ℚ) (dev_labels : Option Col)
    (model : SkModel) (dev_data : DataFrame) : ℚ :=
  let probs := model.predictProba dev_data
  max (rocAucScore (dev_labels.getD []) (probs.map Prod.fst))
      (rocAucScore (dev_labels.getD []) (probs.map Prod.snd))

/-! ## The `find_best_model` search machine

The greedy search is embedded as an explicit state-passing machine.  It is
generic in the fitted-model type `M` and the criterion-value type `V`
(instantiated with `SkModel` and `ℝ` for the faithful wiring below, and
with concrete computable types for executable runs); the external fitting
and scoring services enter as an `Oracles` record.

The state record also carries three specification-only ghost fields that
record the history of the run without influencing it: `winSnapshot` (a
copy of the discard dictionary taken at the moment of the most recent
winning comparison, i.e. what a by-value snapshot would have stored),
`trials` (one record per executed trial of the inner loop), and
`discardsTrace` (every successive value of the `discards` dictionary). -/

/-- Ghost record of one executed trial of the inner 11-iteration loop. -/
structure TrialInfo where
  key : String
  zero : Bool
  dfTrainBefore : DataFrame
  dfDevBefore : DataFrame
  cutoffsBefore : CutoffMap
  discardsBefore : DiscardMap
  dfTrainCopy : DataFrame
  dfDevCopy : DataFrame
  cutoffsCopy : CutoffMap
  cutoffsFilled : Option CutoffVals
  computed : Bool
  labelsUsed : List ℕ
deriving DecidableEq

/-- State of `find_best_model`: the live tables and dictionaries of the
enclosing `TrainClassifier` object plus the local variables of the search,
with the ghost history fields described above.  `best_model` in the source
is a tuple `(model, value, discards)` whose third component is a reference
to the single live `discards` dictionary; `bestModel` therefore stores only
the first two components and the dictionary is dereferenced where the
source reads the tuple (at the `return`). -/
structure SearchSt (M V : Type) where
  dfTrain : DataFrame
  dfDev : Option DataFrame
  labelsTrain : Option (List ℕ)
  cutoffs : CutoffMap
  discards : DiscardMap
  bestModel : Option (M × V)
  labelsLocal : Option (List ℕ)
  winSnapshot : Option DiscardMap
  trials : List TrialInfo
  discardsTrace : List DiscardMap
deriving DecidableEq

/-- The external services used by the search: `fit` abstracts
`train_logreg` (an sklearn `LogisticRegression(solver='liblinear')` fit)
and `critEval` abstracts the criterion branch of the trial body (returning
`.error` where the source would raise, e.g. the `NameError` on an unknown
criterion string). -/
structure Oracles (M V : Type) where
  fit : DataFrame → List ℕ → M
  critEval : String → M → DataFrame → DataFrame → List ℕ → Option (List ℕ) →
    Except String V

/-- The winning test of lines 187-198: a trial wins when no best model is
recorded yet, or when its criterion value is strictly greater (ROC AUC) or
strictly smaller (AIC/BIC) than the recorded best. -/
def winTest [LinearOrder V] (criterion : String) (best : Option (M × V)) (crit : V) : Bool :=
  if criterion = "roc_auc" then
    match best with
    | none => true
    | some (_, b) => decide (b < crit)
  else if criterion = "AIC" ∨ criterion = "BIC" then
    match best with
    | none => true
    | some (_, b) => decide (crit < b)
  else false

/-- The tail of one trial after the criterion value is known: update the
best-model record and `best_discard` on a win, mark the feature for removal
on a winning zero trial, decrement the unrounded local `discard` by 0.01,
and store its rounded value back into the live `discards` dictionary.
Returns the new state together with the updated loop locals
`(discard, best_discard, remove_column)`. -/
def postTrial (key : String) (st1 : SearchSt M V) (zero : Bool)
    (devdf dtc ddc : DataFrame) (cc : CutoffMap) (filled : Option CutoffVals)
    (labels : List ℕ) (discard : ℚ) (LR : M) (crit : V) (win : Bool)
    (best_discard : ℚ) (remove_column : Bool) :
    SearchSt M V × ℚ × ℚ × Bool :=
  ({ dfTrain := st1.dfTrain
     dfDev := st1.dfDev
     labelsTrain := st1.labelsTrain
     cutoffs := st1.cutoffs
     discards := setKey st1.discards key (round2 (discard - 1 / 100))
     bestModel := if win then some (LR, crit) else st1.bestModel
     labelsLocal := st1.labelsLocal
     winSnapshot := if win then some st1.discards else st1.winSnapshot
     trials := st1.trials ++
       [{ key := key, zero := zero, dfTrainBefore := st1.dfTrain,
          dfDevBefore := devdf, cutoffsBefore := st1.cutoffs,
          discardsBefore := st1.discards, dfTrainCopy := dtc,
          dfDevCopy := ddc, cutoffsCopy := cc, cutoffsFilled := filled,
          computed := !zero, labelsUsed := labels }]
     discardsTrace := st1.discardsTrace ++
       [setKey st1.discards key (round2 (discard - 1 / 100))] },
   discard - 1 / 100,
   if win then round2 discard else best_discard,
   if win && zero then true else remove_column)

/-- Fit the classifier (`train_logreg`), evaluate the criterion, and run
the post-trial updates. -/
def afterTrain [LinearOrder V] (or : Oracles M V) (criterion key : String)
    (st1 : SearchSt M V) (zero : Bool) (devdf dtc ddc : DataFrame)
    (cc : CutoffMap) (filled : Option CutoffVals) (labels : List ℕ)
    (discard best_discard : ℚ) (remove_column : Bool) :
    Except String (SearchSt M V × ℚ × ℚ × Bool) :=
  match or.critEval criterion (or.fit dtc labels) dtc ddc labels st1.labelsTrain with
  | .error e => .error e
  | .ok crit =>
    .ok (postTrial key st1 zero devdf dtc ddc cc filled labels discard
      (or.fit dtc labels) crit (winTest criterion st1.bestModel crit)
      best_discard remove_column)

/-- One iteration of the inner `for j in range(11)` loop: copy the tables
and the cutoff dictionary; if the feature's current discard is exactly 0,
pop the feature from all three copies and reuse the labels local variable
(raising `NameError` if no earlier trial ever assigned it); otherwise
recompute the cutoff dictionary and the labels (which also stores the new
labels in the `labels_train` attribute); then fit, score and update.
Accessing `self.dev_data` raises `AttributeError` when the classifier was
constructed without dev scores. -/
def trialStep [LinearOrder V] (or : Oracles M V) (criterion key : String)
    (st : SearchSt M V) (discard best_discard : ℚ) (remove_column : Bool) :
    Except String (SearchSt M V × ℚ × ℚ × Bool) :=
  match st.dfDev with
  | none => .error "AttributeError: dev_data"
  | some devdf =>
    if lookupD st.discards key 0 = 0 then
      match st.labelsLocal with
      | none => .error "NameError: labels"
      | some labels =>
        afterTrain or criterion key st true devdf (popKey st.dfTrain key)
          (popKey devdf key) (popKey st.cutoffs key) none labels
          discard best_discard remove_column
    else
      afterTrain or criterion key
        { st with
          labelsTrain := some (addLabelsCore st.dfTrain
            (set_cutoffs st.dfTrain st.discards st.cutoffs)),
          labelsLocal := some (addLabelsCore st.dfTrain
            (set_cutoffs st.dfTrain st.discards st.cutoffs)) }
        false devdf st.dfTrain devdf st.cutoffs
        (some (set_cutoffs st.dfTrain st.discards st.cutoffs))
        (addLabelsCore st.dfTrain (set_cutoffs st.dfTrain st.discards st.cutoffs))
        discard best_discard remove_column

/-- The inner loop: `n` remaining trials over the accumulator
`(state, discard, best_discard, remove_column)`. -/
def sweepAux [LinearOrder V] (or : Oracles M V) (criterion key : String) :
    ℕ → SearchSt M V × ℚ × ℚ × Bool → Except String (SearchSt M V × ℚ × ℚ × Bool)
  | 0, acc => .ok acc
  | n + 1, acc =>
    match trialStep or criterion key acc.1 acc.2.1 acc.2.2.1 acc.2.2.2 with
    | .error e => .error e
    | .ok acc2 => sweepAux or criterion key n acc2

/-- After a feature's sweep: permanently pop the feature from the live
training table, dev table and cutoff dictionary when a zero trial won, and
store the recorded best discard into the live `discards` dictionary. -/
def featurePost (key : String) (st1 : SearchSt M V) (best_discard : ℚ)
    (remove_column : Bool) : SearchSt M V :=
  let st2 :=
    if remove_column then
      { st1 with dfTrain := popKey st1.dfTrain key,
                 dfDev := Option.map (fun dd => popKey dd key) st1.dfDev,
                 cutoffs := popKey st1.cutoffs key }
    else st1
  { st2 with discards := setKey st2.discards key best_discard,
             discardsTrace := st2.discardsTrace ++ [setKey st2.discards key best_discard] }

/-- One feature of the outer loop: eleven trials starting from the
feature's current discard (which also initialises `best_discard`), then the
post-sweep updates. -/
def featureStep [LinearOrder V] (or : Oracles M V) (criterion : String)
    (st : SearchSt M V) (key : String) : Except String (SearchSt M V) :=
  match sweepAux or criterion key 11
      (st, lookupD st.discards key 0, lookupD st.discards key 0, false) with
  | .error e => .error e
  | .ok (st1, _, best_discard, remove_column) =>
    .ok (featurePost key st1 best_discard remove_column)

/-- The outer loop over the feature keys.  The source iterates the live
`discards.keys()`; the search never adds or removes a key of `discards`,
so the iteration order equals the initial key list, materialised here. -/
def searchLoop [LinearOrder V] (or : Oracles M V) (criterion : String) :
    List String → SearchSt M V → Except String (SearchSt M V)
  | [], st => .ok st
  | k :: ks, st =>
    match featureStep or criterion st k with
    | .error e => .error e
    | .ok st2 => searchLoop or criterion ks st2

/-- The initial search state: cutoffs all `None` and discards all equal to
the configured discard estimate, keyed by the training table's columns. -/
def initSearchSt (M V : Type) (tc : TrainClassifier) : SearchSt M V :=
  { dfTrain := tc.df_training_data
    dfDev := tc.dev_data
    labelsTrain := tc.labels_train
    cutoffs := tc.df_training_data.map (fun p => (p.1, (none : Option ℚ)))
    discards := tc.df_training_data.map (fun p => (p.1, tc.discard_estimate))
    bestModel := none
    labelsLocal := none
    winSnapshot := none
    trials := []
    discardsTrace := [tc.df_training_data.map (fun p => (p.1, tc.discard_estimate))] }

/-- `find_best_model`, returning the final state together with the returned
best-model record.  The record's third component is the live `discards`
dictionary dereferenced at return time (the tuple stored at line 189/195 of
the source holds a reference to that dictionary, not a copy). -/
def findBestModelRun [LinearOrder V] (or : Oracles M V) (tc : TrainClassifier)
    (criterion : String) :
    Except String (SearchSt M V × Option (M × V × DiscardMap)) :=
  match searchLoop or criterion (keysOf (initSearchSt M V tc).discards)
      (initSearchSt M V tc) with
  | .error e => .error e
  | .ok stF =>
    match stF.bestModel with
    | none => .ok (stF, none)
    | some mv => .ok (stF, some (mv.1, mv.2, stF.discards))

/-- `TrainClassifier.find_best_model` proper: only the returned record. -/
def find_best_model [LinearOrder V] (or : Oracles M V) (tc : TrainClassifier)
    (criterion : String) : Except String (Option (M × V × DiscardMap)) :=
  match findBestModelRun or tc criterion with
  | .error e => .error e
  | .ok (_, res) => .ok res

/-- The faithful criterion wiring of lines 177-185: ROC AUC, AIC or BIC of
the freshly fitted model, and a `NameError` (unbound `crit_value`) on any
other criterion string.  Criterion values live in ℝ because AIC and BIC use
the real logarithm. -/
noncomputable def realCritEval (rocAucScore : Col → List ℚ → ℚ)
    (dev_labels : Option Col) :
    String → SkModel → DataFrame → DataFrame → List ℕ → Option (List ℕ) →
    Except String ℝ :=
  fun criterion LR dfTrainCopy dfDevCopy labels labelsTrain =>
    if criterion = "roc_auc" then
      .ok ((get_roc_auc rocAucScore dev_labels LR dfDevCopy : ℚ) : ℝ)
    else if criterion = "AIC" then
      .ok (get_aic labelsTrain LR dfTrainCopy labels)
    else if criterion = "BIC" then
      .ok (get_bic labelsTrain LR dfTrainCopy labels)
    else .error "NameError: crit_value"

/-- The fully wired `find_best_model` over real criterion values, with the
sklearn fit and `roc_auc_score` as the only remaining oracles. -/
noncomputable def TrainClassifier.find_best_model
    (fit : DataFrame → List ℕ → SkModel) (rocAucScore : Col → List ℚ → ℚ)
    (tc : TrainClassifier) (criterion : String) :
    Except String (Option (SkModel × ℝ × DiscardMap)) :=
  match findBestModelRun
      ({ fit := fit, critEval := realCritEval rocAucScore tc.dev_labels } : Oracles SkModel ℝ)
      tc criterion with
  | .error e => .error e
  | .ok (_, res) => .ok res

/-- The labels of the most recent trial of a trace that computed labels. -/
def lastComputed : List TrialInfo → Option (List ℕ)
  | [] => none
  | t :: ts =>
    match lastComputed ts with
    | some l => some l
    | none => if t.computed then some t.labelsUsed else none

/-! ## Concrete instantiations for executable runs

For witnesses and counterexamples the machine is instantiated with the
trivial model type `M := Unit` and rational criterion values `V := ℚ`
(criterion `roc_auc` only, whose values are rational).  Each oracle below
is realisable by the external services it abstracts: a degenerate
classifier with constant class probabilities has ROC AUC 1/2 on any dev
set, and a model fitted without a useless column can attain a higher AUC
than one fitted with it. -/

/-- Oracle: every fitted model scores ROC AUC 1/2 (e.g. constant predicted
probabilities). -/
def constOracles : Oracles Unit ℚ :=
  { fit := fun _ _ => ()
    critEval := fun _ _ _ _ _ _ => .ok (1 / 2) }

/-- Oracle: models fitted on at most one feature column score ROC AUC 9/10,
models fitted on more columns score 1/2 (dropping the useless column helps). -/
def dropHelpsOracles : Oracles Unit ℚ :=
  { fit := fun _ _ => ()
    critEval := fun _ _ dfTrainCopy _ _ _ => .ok (if dfTrainCopy.length ≤ 1 then 9 / 10 else 1 / 2) }

/-- A two-feature training/dev setup (one row), with the given discard
estimate.  The dev table keeps both feature columns so every `pop` of the
source succeeds. -/
def tcAB (de : ℚ) : TrainClassifier :=
  { df_training_data := [("A", [0]), ("B", [0])]
    dev_data := some [("A", [0]), ("B", [0])]
    dev_labels := some [0]
    labels_train := none
    discard_estimate := de }

/-- Run with the standard discard estimate 0.1 and the constant oracle. -/
def runStd : Except String (SearchSt Unit ℚ × Option (Unit × ℚ × DiscardMap)) :=
  findBestModelRun constOracles (tcAB (1 / 10)) "roc_auc"

/-- Run with the unrounded discard estimate 0.104 and the constant oracle. -/
def runUnrounded : Except String (SearchSt Unit ℚ × Option (Unit × ℚ × DiscardMap)) :=
  findBestModelRun constOracles (tcAB (13 / 125)) "roc_auc"

/-- Run with discard estimate 0.1 and the oracle under which the
drop-feature trial of the first feature wins (forcing a removal). -/
def runDrop : Except String (SearchSt Unit ℚ × Option (Unit × ℚ × DiscardMap)) :=
  findBestModelRun dropHelpsOracles (tcAB (1 / 10)) "roc_auc"

/-- Run with discard estimate 0.11 and the constant oracle. -/
def runElevent : Except String (SearchSt Unit ℚ × Option (Unit × ℚ × DiscardMap)) :=
  findBestModelRun constOracles (tcAB (11 / 100)) "roc_auc"

/-- Final state of a run (junk empty state on error, never hit below). -/
def runStateD (r : Except String (SearchSt Unit ℚ × Option (Unit × ℚ × DiscardMap))) :
    SearchSt Unit ℚ :=
  match r with
  | .ok (st, _) => st
  | .error _ =>
    { dfTrain := [], dfDev := none, labelsTrain := none, cutoffs := [],
      discards := [], bestModel := none, labelsLocal := none,
      winSnapshot := none, trials := [], discardsTrace := [] }

/-- Returned record of a run (none on error). -/
def runRes (r : Except String (SearchSt Unit ℚ × Option (Unit × ℚ × DiscardMap))) :
    Option (Unit × ℚ × DiscardMap) :=
  match r with
  | .ok (_, res) => res
  | .error _ => none

/-- Junk trial used as a `getD` default when indexing trial traces. -/
def trialDefault : TrialInfo :=
  { key := "", zero := false, dfTrainBefore := [], dfDevBefore := [],
    cutoffsBefore := [], discardsBefore := [], dfTrainCopy := [],
    dfDevCopy := [], cutoffsCopy := [], cutoffsFilled := none,
    computed := false, labelsUsed := [] }

/-- Demonstration model, dev table, and classifier state used by witnesses. -/
def mDemo : SkModel :=
  { predict := fun _ => [0]
    predictProba := fun _ => [(0, 1)]
    score := fun _ _ => 0 }

/-- Classifier state with no stored training labels, used by the
`add_labels` counterexample. -/
def tcC6 : TrainClassifier :=
  { df_training_data := [("A", [0])], dev_data := none, dev_labels := none,
    labels_train := none, discard_estimate := 1 / 10 }

/-! ## Theorems -/

theorem keysOf_cons (p : String × α) (ps : List (String × α)) :
    keysOf (p :: ps) = p.1 :: keysOf ps := rfl

/-- Claim C1: for every feature key in the cutoff-set, `set_cutoffs` assigns
the `(1 - discard)`-quantile of that feature's training column when the
feature name contains the substring CrossEntropyFilter or WordAlign, and
the discard-quantile of that column for every other feature name.  (The
hypotheses confine the statement to inputs on which the source does not
raise `KeyError` or pandas errors: the key carries a discard and a
nonempty training column, and the discard is a valid quantile position.) -/
theorem claim_C1 (df : DataFrame) (ds : DiscardMap) (cs : CutoffMap) (key : String)
    (hc : key ∈ keysOf cs) (hd : key ∈ keysOf ds) (hf : key ∈ keysOf df)
    (hcol : getColD df key ≠ [])
    (h0 : 0 ≤ lookupD ds key 0) (h1 : lookupD ds key 0 ≤ 1) :
    lookupD (set_cutoffs df ds cs) key 0 =
      (if rejectHigh key then quantile (getColD df key) (1 - lookupD ds key 0)
       else quantile (getColD df key) (lookupD ds key 0)) := by
  induction cs with
  | nil => cases hc
  | cons p ps ih =>
    by_cases hpk : p.1 = key
    · subst hpk
      simp [set_cutoffs, lookupD]
    · have hmem : key ∈ keysOf ps := by
        rw [keysOf_cons] at hc
        cases hc with
        | head => exact absurd rfl hpk
        | tail _ h => exact h
      simpa [set_cutoffs, lookupD, hpk] using ih hmem

/-- Claim C1 witness at a concrete table with one feature of each
orientation. -/
theorem claim_C1_witness :
    lookupD (set_cutoffs [("A", [0, 1]), ("xWordAligny", [0, 1])]
        [("A", 1 / 10), ("xWordAligny", 1 / 10)]
        [("A", none), ("xWordAligny", none)]) "xWordAligny" 0 =
      (if rejectHigh "xWordAligny" then
        quantile (getColD [("A", [0, 1]), ("xWordAligny", [0, 1])] "xWordAligny")
          (1 - lookupD [("A", 1 / 10), ("xWordAligny", 1 / 10)] "xWordAligny" 0)
       else
        quantile (getColD [("A", [0, 1]), ("xWordAligny", [0, 1])] "xWordAligny")
          (lookupD [("A", 1 / 10), ("xWordAligny", 1 / 10)] "xWordAligny" 0)) :=
  claim_C1 [("A", [0, 1]), ("xWordAligny", [0, 1])]
    [("A", 1 / 10), ("xWordAligny", 1 / 10)] [("A", none), ("xWordAligny", none)]
    "xWordAligny" (by with_unfolding_all decide) (by with_unfolding_all decide)
    (by with_unfolding_all decide) (by with_unfolding_all decide)
    (by with_unfolding_all decide) (by with_unfolding_all decide)

theorem labelFold_eq (df : DataFrame) (i : ℕ) (cs : CutoffVals) :
    ∀ a : ℕ,
      cs.foldl
        (fun label p =>
          if rejectHigh p.1 then (if p.2 < colEntry df p.1 i then 0 else label)
          else (if colEntry df p.1 i < p.2 then 0 else label)) a =
      if cs.any (gateFails df i) then 0 else a := by
  induction cs with
  | nil => intro a; simp
  | cons p ps ih =>
    intro a
    simp only [List.foldl_cons, List.any_cons]
    by_cases hg : gateFails df i p = true
    · have hstep :
          (if rejectHigh p.1 then (if p.2 < colEntry df p.1 i then 0 else a)
           else (if colEntry df p.1 i < p.2 then 0 else a)) = 0 := by
        unfold gateFails at hg
        by_cases hr : rejectHigh p.1 = true <;> simp [hr] at hg ⊢ <;> simp [hg]
      rw [hstep, ih 0]
      simp [hg]
    · have hstep :
          (if rejectHigh p.1 then (if p.2 < colEntry df p.1 i then 0 else a)
           else (if colEntry df p.1 i < p.2 then 0 else a)) = a := by
        unfold gateFails at hg
        by_cases hr : rejectHigh p.1 = true <;> simp [hr] at hg ⊢ <;> simp [hg]
      have hgf : gateFails df i p = false := by simpa using hg
      rw [hstep, ih a]
      simp only [hgf, Bool.false_or]

theorem rowLabel_eq (df : DataFrame) (cs : CutoffVals) (i : ℕ) :
    rowLabel df cs i = if cs.any (gateFails df i) then 0 else 1 :=
  labelFold_eq df i cs 1

/-- Claim C2: for every row of the training table and every cutoff-set, the
label of `add_labels` is 1 exactly when the row passes every feature gate
and 0 exactly when at least one gate fails, where the gate of a
CrossEntropyFilter/WordAlign feature fails on a score strictly above the
cutoff and every other gate fails on a score strictly below it; the label
starts at 1 and is only driven to 0 (a conjunction over the gates,
packaged in `gateFails`/`rowLabel`), and recomputation with identical
cutoffs is identical (the embedding of the label computation is a pure
function, stated as the last conjunct). -/
theorem claim_C2 (df : DataFrame) (cs : CutoffVals) (i : ℕ) (hi : i < nrows df) :
    (addLabelsCore df cs).length = nrows df ∧
    (addLabelsCore df cs).getD i 7 = (if cs.any (gateFails df i) then 0 else 1) ∧
    ((addLabelsCore df cs).getD i 7 = 1 ↔ ∀ p ∈ cs, gateFails df i p = false) ∧
    ((addLabelsCore df cs).getD i 7 = 0 ↔ ∃ p ∈ cs, gateFails df i p = true) ∧
    addLabelsCore df cs = addLabelsCore df cs := by
  have hlen : (addLabelsCore df cs).length = nrows df := by
    simp [addLabelsCore]
  have hval : (addLabelsCore df cs).getD i 7 =
      (if cs.any (gateFails df i) then 0 else 1) := by
    rw [addLabelsCore, List.getD_eq_getElem?_getD, List.getElem?_map,
      List.getElem?_range hi]
    simp [rowLabel_eq]
  refine ⟨hlen, hval, ?_, ?_, rfl⟩
  · rw [hval]
    by_cases hany : cs.any (gateFails df i) = true
    · rw [if_pos hany]
      constructor
      · intro h; cases h
      · intro hall
        rcases List.any_eq_true.mp hany with ⟨p, hp, hgp⟩
        rw [hall p hp] at hgp
        cases hgp
    · rw [if_neg hany]
      constructor
      · intro _ p hp
        by_contra hne
        exact hany (List.any_eq_true.mpr ⟨p, hp, by simpa using hne⟩)
      · intro _; rfl
  · rw [hval]
    by_cases hany : cs.any (gateFails df i) = true
    · rw [if_pos hany]
      constructor
      · intro _
        exact List.any_eq_true.mp hany
      · intro _; rfl
    · rw [if_neg hany]
      constructor
      · intro h; cases h
      · intro hex
        exact absurd (List.any_eq_true.mpr hex) hany

/-- Claim C2 witness at a concrete one-row table: the row passes its single
gate and receives label 1. -/
theorem claim_C2_witness :
    (addLabelsCore [("A", [5])] [("A", 3)]).length = nrows [("A", [5])] ∧
    (addLabelsCore [("A", [5])] [("A", 3)]).getD 0 7 =
      (if ([("A", (3 : ℚ))] : CutoffVals).any (gateFails [("A", [5])] 0) then 0 else 1) ∧
    ((addLabelsCore [("A", [5])] [("A", 3)]).getD 0 7 = 1 ↔
      ∀ p ∈ ([("A", (3 : ℚ))] : CutoffVals), gateFails [("A", [5])] 0 p = false) ∧
    ((addLabelsCore [("A", [5])] [("A", 3)]).getD 0 7 = 0 ↔
      ∃ p ∈ ([("A", (3 : ℚ))] : CutoffVals), gateFails [("A", [5])] 0 p = true) ∧
    addLabelsCore [("A", [5])] [("A", 3)] = addLabelsCore [("A", [5])] [("A", 3)] :=
  claim_C2 [("A", [5])] [("A", 3)] 0 (by with_unfolding_all decide)

/-- Claim C6, amended: `add_labels` returns the computed label sequence and
its only side effect is storing that sequence in the `labels_train`
attribute; every other field of the `TrainClassifier` state is unchanged.
(The original claim, that no field at all changes, is refuted below.) -/
theorem claim_C6_amended (st : TrainClassifier) (df : DataFrame) (cs : CutoffVals) :
    (st.add_labels df cs).2 = addLabelsCore df cs ∧
    (st.add_labels df cs).1.labels_train = some (addLabelsCore df cs) ∧
    (st.add_labels df cs).1.df_training_data = st.df_training_data ∧
    (st.add_labels df cs).1.dev_data = st.dev_data ∧
    (st.add_labels df cs).1.dev_labels = st.dev_labels ∧
    (st.add_labels df cs).1.discard_estimate = st.discard_estimate :=
  ⟨rfl, rfl, rfl, rfl, rfl, rfl⟩

/-- Claim C6 counterexample: calling `add_labels` on a state whose
`labels_train` field is `none` changes that field (line 133 of the source
assigns `self.labels_train`), so `add_labels` does not leave every field of
the state unchanged. -/
theorem claim_C6_counterexample :
    (tcC6.add_labels [("A", [0])] [("A", 0)]).1.labels_train ≠ tcC6.labels_train := by
  with_unfolding_all decide

/-- Claim C8: the SSE is the sum of squared residuals between the
previously stored training-label vector (`self.labels_train`, not the
`labels` argument, which `get_sse` ignores) and the model's point
predictions, plus 0.01; AIC is `2 k - 2 ln SSE` with `k` the column count
of the snapshot; BIC is `ln(n) k - 2 ln SSE` with `n` the row count. -/
theorem claim_C8 (ltr : List ℕ) (labels_train : Option (List ℕ))
    (h : labels_train = some ltr) (m : SkModel) (df : DataFrame) (labels : List ℕ) :
    get_sse labels_train m df labels =
      (List.zipWith (fun (l : ℕ) (p : ℚ) => ((l : ℚ) - p) ^ 2) ltr (m.predict df)).sum
        + 1 / 100 ∧
    get_aic labels_train m df labels =
      2 * (df.length : ℝ) -
        2 * Real.log ((get_sse labels_train m df labels : ℚ) : ℝ) ∧
    get_bic labels_train m df labels =
      Real.log ((nrows df : ℕ) : ℝ) * (df.length : ℝ) -
        2 * Real.log ((get_sse labels_train m df labels : ℚ) : ℝ) := by
  subst h
  refine ⟨?_, rfl, rfl⟩
  simp [get_sse, List.map_zipWith]

/-- Claim C8 witness at a concrete model and table. -/
theorem claim_C8_witness :
    get_sse (some [1]) mDemo [("A", [0])] [0] =
      (List.zipWith (fun (l : ℕ) (p : ℚ) => ((l : ℚ) - p) ^ 2) [1]
        (mDemo.predict [("A", [0])])).sum + 1 / 100 ∧
    get_aic (some [1]) mDemo [("A", [0])] [0] =
      2 * (([("A", [(0 : ℚ)])] : DataFrame).length : ℝ) -
        2 * Real.log ((get_sse (some [1]) mDemo [("A", [0])] [0] : ℚ) : ℝ) ∧
    get_bic (some [1]) mDemo [("A", [0])] [0] =
      Real.log ((nrows [("A", [0])] : ℕ) : ℝ) * (([("A", [(0 : ℚ)])] : DataFrame).length : ℝ) -
        2 * Real.log ((get_sse (some [1]) mDemo [("A", [0])] [0] : ℚ) : ℝ) :=
  claim_C8 [1] (some [1]) rfl mDemo [("A", [0])] [0]

/-- Claim C9: `get_roc_auc` is the maximum of the ROC AUC of the class-0
probability column and that of the class-1 probability column against the
stored dev labels, and is therefore invariant under swapping the model's
two probability columns. -/
theorem claim_C9 (roc : Col → List ℚ → ℚ) (dl : Col) (devL : Option Col)
    (h : devL = some dl) (m : SkModel) (dev : DataFrame) :
    get_roc_auc roc devL m dev =
      max (roc dl ((m.predictProba dev).map Prod.fst))
          (roc dl ((m.predictProba dev).map Prod.snd)) ∧
    get_roc_auc roc devL (swapProba m) dev = get_roc_auc roc devL m dev := by
  subst h
  refine ⟨rfl, ?_⟩
  simp only [get_roc_auc, swapProba, List.map_map]
  have h1 : (Prod.fst ∘ Prod.swap : ℚ × ℚ → ℚ) = Prod.snd := rfl
  have h2 : (Prod.snd ∘ Prod.swap : ℚ × ℚ → ℚ) = Prod.fst := rfl
  rw [h1, h2, max_comm]

/-- Claim C9 witness at a concrete oracle and model. -/
theorem claim_C9_witness :
    get_roc_auc (fun _ _ => 0) (some [1]) mDemo [("A", [0])] =
      max ((fun (_ : Col) (_ : List ℚ) => (0 : ℚ)) [1]
            ((mDemo.predictProba [("A", [0])]).map Prod.fst))
          ((fun (_ : Col) (_ : List ℚ) => (0 : ℚ)) [1]
            ((mDemo.predictProba [("A", [0])]).map Prod.snd)) ∧
    get_roc_auc (fun _ _ => 0) (some [1]) (swapProba mDemo) [("A", [0])] =
      get_roc_auc (fun _ _ => 0) (some [1]) mDemo [("A", [0])] :=
  claim_C9 (fun _ _ => 0) [1] (some [1]) rfl mDemo [("A", [0])]

theorem trialStep_ok {M V : Type} [LinearOrder V] (or : Oracles M V)
    (criterion key : String) (st : SearchSt M V) (d bd : ℚ) (rc : Bool)
    (out : SearchSt M V × ℚ × ℚ × Bool)
    (h : trialStep or criterion key st d bd rc = .ok out) :
    out.1.dfTrain = st.dfTrain ∧ out.1.dfDev = st.dfDev ∧
    out.1.cutoffs = st.cutoffs ∧
    out.1.discards = setKey st.discards key (round2 (d - 1 / 100)) ∧
    out.1.discardsTrace = st.discardsTrace ++ [setKey st.discards key (round2 (d - 1 / 100))] ∧
    out.2.1 = d - 1 / 100 ∧ (out.2.2.1 = bd ∨ out.2.2.1 = round2 d) ∧
    ∃ devdf labels,
      st.dfDev = some devdf ∧
      ((lookupD st.discards key 0 = 0 ∧ st.labelsLocal = some labels ∧
        out.1.labelsTrain = st.labelsTrain ∧ out.1.labelsLocal = st.labelsLocal ∧
        out.1.trials = st.trials ++
          [{ key := key, zero := true, dfTrainBefore := st.dfTrain,
             dfDevBefore := devdf, cutoffsBefore := st.cutoffs,
             discardsBefore := st.discards,
             dfTrainCopy := popKey st.dfTrain key,
             dfDevCopy := popKey devdf key,
             cutoffsCopy := popKey st.cutoffs key,
             cutoffsFilled := none, computed := false, labelsUsed := labels }]) ∨
       (¬ lookupD st.discards key 0 = 0 ∧
        labels = addLabelsCore st.dfTrain (set_cutoffs st.dfTrain st.discards st.cutoffs) ∧
        out.1.labelsTrain = some labels ∧ out.1.labelsLocal = some labels ∧
        out.1.trials = st.trials ++
          [{ key := key, zero := false, dfTrainBefore := st.dfTrain,
             dfDevBefore := devdf, cutoffsBefore := st.cutoffs,
             discardsBefore := st.discards,
             dfTrainCopy := st.dfTrain, dfDevCopy := devdf,
             cutoffsCopy := st.cutoffs,
             cutoffsFilled := some (set_cutoffs st.dfTrain st.discards st.cutoffs),
             computed := true, labelsUsed := labels }])) := by
  unfold trialStep afterTrain at h
  split at h
  · cases h
  · rename_i devdf hdev
    split at h
    · rename_i hz
      split at h
      · cases h
      · rename_i labels hll
        split at h
        · cases h
        · rename_i crit hce
          injection h with hpt
          refine ⟨?_, ?_, ?_, ?_, ?_, ?_, ?_,
            devdf, labels, hdev, .inl ⟨hz, hll, ?_, ?_, ?_⟩⟩ <;> rw [← hpt]
          · rfl
          · rfl
          · rfl
          · rfl
          · rfl
          · rfl
          · by_cases hw : winTest criterion st.bestModel crit = true
            · right
              show (if winTest criterion st.bestModel crit then round2 d else bd) = round2 d
              rw [if_pos hw]
            · left
              show (if winTest criterion st.bestModel crit then round2 d else bd) = bd
              rw [if_neg hw]
          · rfl
          · rfl
          · rfl
    · rename_i hz
      split at h
      · cases h
      · rename_i crit hce
        injection h with hpt
        refine ⟨?_, ?_, ?_, ?_, ?_, ?_, ?_,
          devdf,
          addLabelsCore st.dfTrain (set_cutoffs st.dfTrain st.discards st.cutoffs),
          hdev, .inr ⟨hz, rfl, ?_, ?_, ?_⟩⟩ <;> rw [← hpt]
        · rfl
        · rfl
        · rfl
        · rfl
        · rfl
        · rfl
        · by_cases hw : winTest criterion st.bestModel crit = true
          · right
            show (if winTest criterion st.bestModel crit then round2 d else bd) = round2 d
            rw [if_pos hw]
          · left
            show (if winTest criterion st.bestModel crit then round2 d else bd) = bd
            rw [if_neg hw]
        · rfl
        · rfl
        · rfl

theorem sweepAux_pres {M V : Type} [LinearOrder V] (or : Oracles M V)
    (criterion key : String) (P : SearchSt M V → Prop)
    (hstep : ∀ st d bd rc out,
      trialStep or criterion key st d bd rc = .ok out → P st → P out.1) :
    ∀ (n : ℕ) (acc out : SearchSt M V × ℚ × ℚ × Bool),
      sweepAux or criterion key n acc = .ok out → P acc.1 → P out.1 := by
  intro n
  induction n with
  | zero =>
    intro acc out h hp
    unfold sweepAux at h
    injection h with h2
    rw [← h2]
    exact hp
  | succ n ih =>
    intro acc out h hp
    unfold sweepAux at h
    split at h
    · cases h
    · rename_i acc2 hts
      exact ih acc2 out h (hstep acc.1 acc.2.1 acc.2.2.1 acc.2.2.2 acc2 hts hp)

theorem featureStep_ok {M V : Type} [LinearOrder V] (or : Oracles M V)
    (criterion : String) (st : SearchSt M V) (key : String) (st3 : SearchSt M V)
    (h : featureStep or criterion st key = .ok st3) :
    ∃ out : SearchSt M V × ℚ × ℚ × Bool,
      sweepAux or criterion key 11
        (st, lookupD st.discards key 0, lookupD st.discards key 0, false) = .ok out ∧
      st3 = featurePost key out.1 out.2.2.1 out.2.2.2 := by
  unfold featureStep at h
  split at h
  · cases h
  · rename_i st1 d1 bd1 rc1 hsw
    injection h with h2
    exact ⟨(st1, d1, bd1, rc1), hsw, h2.symm⟩

theorem searchLoop_pres {M V : Type} [LinearOrder V] (or : Oracles M V)
    (criterion : String) (P : SearchSt M V → Prop)
    (hstep : ∀ st key st3, featureStep or criterion st key = .ok st3 → P st → P st3) :
    ∀ (ks : List String) (st st2 : SearchSt M V),
      searchLoop or criterion ks st = .ok st2 → P st → P st2 := by
  intro ks
  induction ks with
  | nil =>
    intro st st2 h hp
    unfold searchLoop at h
    injection h with h2
    rw [← h2]
    exact hp
  | cons k ks ih =>
    intro st st2 h hp
    unfold searchLoop at h
    split at h
    · cases h
    · rename_i stm hfs
      exact ih stm st2 h (hstep st k stm hfs hp)

theorem findBestModelRun_ok {M V : Type} [LinearOrder V] (or : Oracles M V)
    (tc : TrainClassifier) (criterion : String) (stF : SearchSt M V)
    (resF : Option (M × V × DiscardMap))
    (h : findBestModelRun or tc criterion = .ok (stF, resF)) :
    searchLoop or criterion (keysOf (initSearchSt M V tc).discards)
      (initSearchSt M V tc) = .ok stF ∧
    resF = stF.bestModel.map (fun mv => (mv.1, mv.2, stF.discards)) := by
  unfold findBestModelRun at h
  split at h
  · cases h
  · rename_i stF2 hsl
    split at h
    · rename_i hbm
      injection h with h2
      injection h2 with ha hb
      subst ha
      subst hb
      exact ⟨hsl, by rw [hbm]; rfl⟩
    · rename_i mv hbm
      injection h with h2
      injection h2 with ha hb
      subst ha
      subst hb
      exact ⟨hsl, by rw [hbm]; rfl⟩

theorem trialStep_dev_none {M V : Type} [LinearOrder V] (or : Oracles M V)
    (criterion key : String) (st : SearchSt M V) (d bd : ℚ) (rc : Bool)
    (h : st.dfDev = none) :
    trialStep or criterion key st d bd rc = .error "AttributeError: dev_data" := by
  unfold trialStep
  rw [h]

theorem sweepAux_dev_none {M V : Type} [LinearOrder V] (or : Oracles M V)
    (criterion key : String) (n : ℕ) (st : SearchSt M V) (d bd : ℚ) (rc : Bool)
    (h : st.dfDev = none) :
    sweepAux or criterion key (n + 1) (st, d, bd, rc) =
      .error "AttributeError: dev_data" := by
  unfold sweepAux
  rw [trialStep_dev_none or criterion key st d bd rc h]

theorem featureStep_dev_none {M V : Type} [LinearOrder V] (or : Oracles M V)
    (criterion : String) (st : SearchSt M V) (key : String) (h : st.dfDev = none) :
    featureStep or criterion st key = .error "AttributeError: dev_data" := by
  unfold featureStep
  rw [sweepAux_dev_none or criterion key 10 st _ _ false h]

theorem searchLoop_dev_none {M V : Type} [LinearOrder V] (or : Oracles M V)
    (criterion k : String) (ks : List String) (st : SearchSt M V)
    (h : st.dfDev = none) :
    searchLoop or criterion (k :: ks) st = .error "AttributeError: dev_data" := by
  unfold searchLoop
  rw [featureStep_dev_none or criterion st k h]

/-- Claim C10, amended: a `TrainClassifier` constructed without dev scores
has no `dev_data` or `dev_labels` attribute, and on a training table with
at least one column every call of `find_best_model` fails in its very first
trial, when it copies the dev table, for every criterion string, including
AIC and BIC.  (The original claim, unrestricted to nonempty tables, is
refuted below: with zero training columns, no trial runs and the call
returns successfully.) -/
theorem claim_C10_amended {M V : Type} [LinearOrder V] (or : Oracles M V)
    (df : DataFrame) (de : Option ℚ) (criterion : String)
    (p : String × Col) (rest : DataFrame) (hdf : df = p :: rest) :
    (TrainClassifier.init df none de).dev_data = none ∧
    (TrainClassifier.init df none de).dev_labels = none ∧
    find_best_model or (TrainClassifier.init df none de) criterion =
      .error "AttributeError: dev_data" := by
  subst hdf
  refine ⟨rfl, rfl, ?_⟩
  unfold find_best_model findBestModelRun
  have hk : keysOf (initSearchSt M V (TrainClassifier.init (p :: rest) none de)).discards =
      p.1 :: keysOf (rest.map
        (fun q => (q.1, (TrainClassifier.init (p :: rest) none de).discard_estimate))) := rfl
  rw [hk, searchLoop_dev_none or criterion p.1 _ _ rfl]

/-- Claim C10 witness: concrete one-column table, criterion BIC. -/
theorem claim_C10_witness :
    (TrainClassifier.init [("A", [0])] none none).dev_data = none ∧
    (TrainClassifier.init [("A", [0])] none none).dev_labels = none ∧
    find_best_model constOracles (TrainClassifier.init [("A", [0])] none none) "BIC" =
      .error "AttributeError: dev_data" :=
  claim_C10_amended constOracles [("A", [0])] none "BIC" ("A", [0]) [] rfl

/-- Claim C10 counterexample: a `TrainClassifier` built from an empty
training table (an empty training-scores file) and no dev scores has no
`dev_data` attribute, yet `find_best_model` does not fail: the outer loop
body never runs and the call returns `None`. -/
theorem claim_C10_counterexample :
    (TrainClassifier.init [] none none).dev_data = none ∧
    find_best_model constOracles (TrainClassifier.init [] none none) "AIC" = .ok none := by
  exact ⟨rfl, by with_unfolding_all rfl⟩

theorem keysOf_setKey (l : List (String × α)) (k : String) (v : α) :
    keysOf (setKey l k v) = keysOf l := by
  induction l with
  | nil => rfl
  | cons p ps ih =>
    by_cases hp : p.1 = k
    · simp [setKey, keysOf, hp, ih]
    · simp [setKey, keysOf, hp, ih]

theorem keysOf_popKey (l : List (String × α)) (k : String) :
    keysOf (popKey l k) = (keysOf l).filter (fun s => !decide (s = k)) := by
  induction l with
  | nil => rfl
  | cons p ps ih =>
    by_cases hp : p.1 = k
    · simp [popKey, keysOf, hp, ih, List.filter]
    · simp [popKey, keysOf, hp, ih, List.filter]

theorem mem_keysOf_popKey (l : List (String × α)) (k k2 : String)
    (h : k2 ∈ keysOf (popKey l k)) : k2 ∈ keysOf l := by
  rw [keysOf_popKey] at h
  exact List.mem_of_mem_filter h

theorem lookupD_setKey_ne (l : List (String × α)) (k k2 : String) (v : α) (dflt : α)
    (h : k2 ≠ k) : lookupD (setKey l k v) k2 dflt = lookupD l k2 dflt := by
  induction l with
  | nil => rfl
  | cons p ps ih =>
    by_cases hp : p.1 = k
    · have : ¬(k = k2) := fun he => h he.symm
      simp [setKey, lookupD, hp, this, ih]
    · by_cases hp2 : p.1 = k2
      · simp [setKey, lookupD, hp, hp2, h]
      · simp [setKey, lookupD, hp, hp2, ih]

theorem mem_setKey (l : List (String × α)) (k : String) (v : α) (p : String × α)
    (h : p ∈ setKey l k v) : p = (k, v) ∨ p ∈ l := by
  induction l with
  | nil => cases h
  | cons q qs ih =>
    by_cases hq : q.1 = k
    · rw [setKey, if_pos hq] at h
      rcases List.mem_cons.mp h with h1 | h2
      · exact .inl h1
      · rcases ih h2 with h3 | h4
        · exact .inl h3
        · exact .inr (List.mem_cons_of_mem q h4)
    · rw [setKey, if_neg hq] at h
      rcases List.mem_cons.mp h with h1 | h2
      · exact .inr (h1 ▸ List.mem_cons_self q qs)
      · rcases ih h2 with h3 | h4
        · exact .inl h3
        · exact .inr (List.mem_cons_of_mem q h4)

theorem keysOf_map_pair (l : List (String × α)) (f : String × α → β) :
    keysOf (l.map (fun p => (p.1, f p))) = keysOf l := by
  induction l with
  | nil => rfl
  | cons p ps ih => simp [keysOf, ih]

theorem lookupD_map_const (l : List (String × α)) (c : β) (k : String) (dflt : β)
    (h : k ∈ keysOf l) : lookupD (l.map (fun p => (p.1, c))) k dflt = c := by
  induction l with
  | nil => cases h
  | cons p ps ih =>
    by_cases hp : p.1 = k
    · simp [lookupD, hp]
    · rw [keysOf_cons] at h
      rcases List.mem_cons.mp h with h1 | h2
      · exact absurd h1.symm hp
      · simp only [List.map_cons]
        rw [lookupD, if_neg hp]
        exact ih h2

/-- Claim C4, amended: the best-model record stores the live discard
dictionary by reference, not a copy; the discard-set component of the
returned record is therefore the final discard dictionary (after all
sweeps), which later mutations do affect.  (The original by-copy claim is
refuted below.) -/
theorem claim_C4_amended {M V : Type} [LinearOrder V] (or : Oracles M V)
    (tc : TrainClassifier) (criterion : String) (stF : SearchSt M V)
    (m : M) (v : V) (d : DiscardMap)
    (hrun : findBestModelRun or tc criterion = .ok (stF, some (m, v, d))) :
    d = stF.discards := by
  obtain ⟨-, hres⟩ := findBestModelRun_ok or tc criterion stF (some (m, v, d)) hrun
  cases hbm : stF.bestModel with
  | none =>
    rw [hbm] at hres
    cases hres
  | some mv =>
    rw [hbm] at hres
    injection hres with h2
    exact congrArg (fun t => t.2.2) h2

/-- Claim C4 witness: at the concrete run with discard estimate 0.104, the
returned record's discard component equals the final discard dictionary. -/
theorem claim_C4_witness :
    ([("A", (1 : ℚ)/10), ("B", (13 : ℚ)/125)] : DiscardMap) =
      (runStateD runUnrounded).discards :=
  claim_C4_amended constOracles (tcAB (13 / 125)) "roc_auc" (runStateD runUnrounded)
    () (1 / 2) [("A", 1 / 10), ("B", 13 / 125)] (by with_unfolding_all rfl)

/-- Claim C4 counterexample: with discard estimate 0.104, the only winning
comparison happens at the first trial of feature A, where the discard
dictionary is 0.104 at both keys (recorded by the ghost `winSnapshot`,
which stores exactly the copy the claim says the record holds).  The
returned best-model record instead carries the dictionary as later mutated
(A rounded to its best value 0.1), so the discard-set component of the
returned record was changed by discard mutations performed after the win,
contradicting the claim. -/
theorem claim_C4_counterexample :
    (runStateD runUnrounded).winSnapshot = some [("A", 13 / 125), ("B", 13 / 125)] ∧
    runRes runUnrounded = some ((), 1 / 2, [("A", 1 / 10), ("B", 13 / 125)]) ∧
    ([("A", (13 : ℚ)/125), ("B", (13 : ℚ)/125)] : DiscardMap) ≠
      [("A", (1 : ℚ)/10), ("B", (13 : ℚ)/125)] := by
  refine ⟨by with_unfolding_all decide, by with_unfolding_all decide,
    by with_unfolding_all decide⟩

theorem featurePost_false {M V : Type} (key : String) (st1 : SearchSt M V) (bd : ℚ) :
    featurePost key st1 bd false =
      { st1 with
        discards := setKey st1.discards key bd,
        discardsTrace := st1.discardsTrace ++ [setKey st1.discards key bd] } := rfl

theorem featurePost_true {M V : Type} (key : String) (st1 : SearchSt M V) (bd : ℚ) :
    featurePost key st1 bd true =
      { st1 with
        dfTrain := popKey st1.dfTrain key,
        dfDev := Option.map (fun dd => popKey dd key) st1.dfDev,
        cutoffs := popKey st1.cutoffs key,
        discards := setKey st1.discards key bd,
        discardsTrace := st1.discardsTrace ++ [setKey st1.discards key bd] } := rfl

theorem trialStep_keys {M V : Type} [LinearOrder V] (or : Oracles M V)
    (criterion key : String) (st : SearchSt M V) (d bd : ℚ) (rc : Bool)
    (out : SearchSt M V × ℚ × ℚ × Bool)
    (h : trialStep or criterion key st d bd rc = .ok out)
    (hc : keysOf st.cutoffs = keysOf st.dfTrain)
    (hd : ∀ k, k ∈ keysOf st.dfTrain → k ∈ keysOf st.discards)
    (ht : ∀ t ∈ st.trials, keysOf t.cutoffsBefore = keysOf t.dfTrainBefore ∧
      ∀ k, k ∈ keysOf t.dfTrainBefore → k ∈ keysOf t.discardsBefore) :
    keysOf out.1.cutoffs = keysOf out.1.dfTrain ∧
    (∀ k, k ∈ keysOf out.1.dfTrain → k ∈ keysOf out.1.discards) ∧
    ∀ t ∈ out.1.trials, keysOf t.cutoffsBefore = keysOf t.dfTrainBefore ∧
      ∀ k, k ∈ keysOf t.dfTrainBefore → k ∈ keysOf t.discardsBefore := by
  obtain ⟨h1, h2, h3, h4, h5, h6, h7, devdf, labels, hdev, hbr⟩ :=
    trialStep_ok or criterion key st d bd rc out h
  refine ⟨by rw [h3, h1]; exact hc, ?_, ?_⟩
  · intro k hk
    rw [h1] at hk
    rw [h4, keysOf_setKey]
    exact hd k hk
  · intro t htmem
    rcases hbr with ⟨_, _, _, _, htr⟩ | ⟨_, _, _, _, htr⟩ <;>
    · rw [htr] at htmem
      rcases List.mem_append.mp htmem with hold | hnew
      · exact ht t hold
      · have heq := List.mem_singleton.mp hnew
        subst heq
        exact ⟨hc, hd⟩

theorem featureStep_keys {M V : Type} [LinearOrder V] (or : Oracles M V)
    (criterion : String) (st : SearchSt M V) (key : String) (st3 : SearchSt M V)
    (h : featureStep or criterion st key = .ok st3)
    (hc : keysOf st.cutoffs = keysOf st.dfTrain)
    (hd : ∀ k, k ∈ keysOf st.dfTrain → k ∈ keysOf st.discards)
    (ht : ∀ t ∈ st.trials, keysOf t.cutoffsBefore = keysOf t.dfTrainBefore ∧
      ∀ k, k ∈ keysOf t.dfTrainBefore → k ∈ keysOf t.discardsBefore) :
    keysOf st3.cutoffs = keysOf st3.dfTrain ∧
    (∀ k, k ∈ keysOf st3.dfTrain → k ∈ keysOf st3.discards) ∧
    ∀ t ∈ st3.trials, keysOf t.cutoffsBefore = keysOf t.dfTrainBefore ∧
      ∀ k, k ∈ keysOf t.dfTrainBefore → k ∈ keysOf t.discardsBefore := by
  obtain ⟨out, hsw, rfl⟩ := featureStep_ok or criterion st key st3 h
  have hout := sweepAux_pres or criterion key
    (fun s => keysOf s.cutoffs = keysOf s.dfTrain ∧
      (∀ k, k ∈ keysOf s.dfTrain → k ∈ keysOf s.discards) ∧
      ∀ t ∈ s.trials, keysOf t.cutoffsBefore = keysOf t.dfTrainBefore ∧
        ∀ k, k ∈ keysOf t.dfTrainBefore → k ∈ keysOf t.discardsBefore)
    (fun s d2 bd2 rc2 out2 h2 hp =>
      trialStep_keys or criterion key s d2 bd2 rc2 out2 h2 hp.1 hp.2.1 hp.2.2)
    11 _ out hsw ⟨hc, hd, ht⟩
  obtain ⟨hc1, hd1, ht1⟩ := hout
  cases hrc : out.2.2.2 with
  | false =>
    rw [featurePost_false]
    exact ⟨hc1, fun k hk => by rw [keysOf_setKey]; exact hd1 k hk, ht1⟩
  | true =>
    rw [featurePost_true]
    refine ⟨?_, ?_, ht1⟩
    · show keysOf (popKey out.1.cutoffs key) = keysOf (popKey out.1.dfTrain key)
      rw [keysOf_popKey, keysOf_popKey, hc1]
    · intro k hk
      have hk2 := mem_keysOf_popKey out.1.dfTrain key k hk
      show k ∈ keysOf (setKey out.1.discards key out.2.2.1)
      rw [keysOf_setKey]
      exact hd1 k hk2

/-- Claim C5, amended: the cutoff dictionary always has exactly the same
key set as the live training table (also inside every trial, via the
recorded before-states), but the discard dictionary only contains it: a
feature permanently removed at the end of its sweep is popped from the
training table, the dev table and the cutoff dictionary, yet its key stays
in the discard dictionary (line 208 re-assigns it instead of popping).
(The original claim, that the discard keys also coincide with the table
columns, is refuted below.) -/
theorem claim_C5_amended {M V : Type} [LinearOrder V] (or : Oracles M V)
    (tc : TrainClassifier) (criterion : String) (stF : SearchSt M V)
    (resF : Option (M × V × DiscardMap))
    (hrun : findBestModelRun or tc criterion = .ok (stF, resF)) :
    keysOf stF.cutoffs = keysOf stF.dfTrain ∧
    (∀ k, k ∈ keysOf stF.dfTrain → k ∈ keysOf stF.discards) ∧
    ∀ t ∈ stF.trials, keysOf t.cutoffsBefore = keysOf t.dfTrainBefore ∧
      ∀ k, k ∈ keysOf t.dfTrainBefore → k ∈ keysOf t.discardsBefore := by
  obtain ⟨hsl, -⟩ := findBestModelRun_ok or tc criterion stF resF hrun
  refine searchLoop_pres or criterion
    (fun s => keysOf s.cutoffs = keysOf s.dfTrain ∧
      (∀ k, k ∈ keysOf s.dfTrain → k ∈ keysOf s.discards) ∧
      ∀ t ∈ s.trials, keysOf t.cutoffsBefore = keysOf t.dfTrainBefore ∧
        ∀ k, k ∈ keysOf t.dfTrainBefore → k ∈ keysOf t.discardsBefore)
    (fun s key s3 hfs hp => featureStep_keys or criterion s key s3 hfs hp.1 hp.2.1 hp.2.2)
    _ _ _ hsl ⟨?_, ?_, ?_⟩
  · exact keysOf_map_pair tc.df_training_data (fun _ => (none : Option ℚ))
  · intro k hk
    show k ∈ keysOf (tc.df_training_data.map (fun p => (p.1, tc.discard_estimate)))
    rw [keysOf_map_pair tc.df_training_data (fun _ => tc.discard_estimate)]
    exact hk
  · intro t htmem
    cases htmem

/-- Claim C5 counterexample: in the concrete run in which the drop-feature
trial of feature A wins, the final live training table and cutoff
dictionary hold only B while the discard dictionary still holds both A and
B, so the discard-set does not have the same key set as the training
table's column set after the removal. -/
theorem claim_C5_counterexample :
    keysOf (runStateD runDrop).dfTrain = ["B"] ∧
    keysOf (runStateD runDrop).cutoffs = ["B"] ∧
    keysOf (runStateD runDrop).discards = ["A", "B"] := by
  refine ⟨by with_unfolding_all decide, by with_unfolding_all decide,
    by with_unfolding_all decide⟩

/-- Claim C5 witness: the amended invariant instantiated at the removal
run, with the subset part applied at the surviving key B. -/
theorem claim_C5_witness :
    keysOf (runStateD runDrop).cutoffs = keysOf (runStateD runDrop).dfTrain ∧
    "B" ∈ keysOf (runStateD runDrop).discards := by
  have h := claim_C5_amended dropHelpsOracles (tcAB (1 / 10)) "roc_auc"
    (runStateD runDrop) (runRes runDrop) (by with_unfolding_all rfl)
  exact ⟨h.1, h.2.1 "B" (by with_unfolding_all decide)⟩

theorem getElem?_append_left_custom {α : Type} :
    ∀ (ts l : List α) (j : ℕ), j < ts.length → (ts ++ l)[j]? = ts[j]?
  | [], _, j, h => absurd h (by simp)
  | a :: ts, l, 0, _ => by simp
  | a :: ts, l, j + 1, h => by
    rw [List.cons_append, List.getElem?_cons_succ, List.getElem?_cons_succ]
    exact getElem?_append_left_custom ts l j (Nat.lt_of_succ_lt_succ h)

theorem getElem?_concat_self {α : Type} :
    ∀ (ts : List α) (t : α), (ts ++ [t])[ts.length]? = some t
  | [], _ => rfl
  | a :: ts, t => by
    rw [List.cons_append, List.length_cons, List.getElem?_cons_succ]
    exact getElem?_concat_self ts t

theorem getElem?_some_lt {α : Type} :
    ∀ (l : List α) (j : ℕ) (t : α), l[j]? = some t → j < l.length
  | [], _, _, h => nomatch h
  | _ :: _, 0, _, _ => Nat.succ_pos _
  | a :: l, j + 1, t, h => by
    rw [List.length_cons]
    refine Nat.succ_lt_succ (getElem?_some_lt l j t ?_)
    rw [List.getElem?_cons_succ] at h
    exact h

theorem take_append_left_custom {α : Type} :
    ∀ (ts l : List α) (j : ℕ), j ≤ ts.length → (ts ++ l).take j = ts.take j
  | _, _, 0, _ => rfl
  | [], _, j + 1, h => absurd h (by simp)
  | a :: ts, l, j + 1, h => by
    rw [List.cons_append]
    show a :: (ts ++ l).take j = a :: ts.take j
    rw [take_append_left_custom ts l j (Nat.le_of_succ_le_succ h)]

theorem lastComputed_append (ts : List TrialInfo) (t : TrialInfo) :
    lastComputed (ts ++ [t]) =
      if t.computed then some t.labelsUsed else lastComputed ts := by
  induction ts with
  | nil => rfl
  | cons a ts ih =>
    show (match lastComputed (ts ++ [t]) with
      | some l => some l
      | none => if a.computed then some a.labelsUsed else none) =
      if t.computed then some t.labelsUsed else lastComputed (a :: ts)
    rw [ih]
    by_cases hc : t.computed = true
    · rw [if_pos hc, if_pos hc]
    · rw [if_neg hc, if_neg hc]
      rfl

theorem trialStep_labels {M V : Type} [LinearOrder V] (or : Oracles M V)
    (criterion key : String) (st : SearchSt M V) (d bd : ℚ) (rc : Bool)
    (out : SearchSt M V × ℚ × ℚ × Bool)
    (h : trialStep or criterion key st d bd rc = .ok out)
    (hL : st.labelsLocal = lastComputed st.trials)
    (hG : ∀ j t, st.trials[j]? = some t → t.zero = true →
      t.dfTrainCopy = popKey t.dfTrainBefore t.key ∧
      t.dfDevCopy = popKey t.dfDevBefore t.key ∧
      t.cutoffsCopy = popKey t.cutoffsBefore t.key ∧
      t.computed = false ∧
      lastComputed (st.trials.take j) = some t.labelsUsed) :
    out.1.labelsLocal = lastComputed out.1.trials ∧
    ∀ j t, out.1.trials[j]? = some t → t.zero = true →
      t.dfTrainCopy = popKey t.dfTrainBefore t.key ∧
      t.dfDevCopy = popKey t.dfDevBefore t.key ∧
      t.cutoffsCopy = popKey t.cutoffsBefore t.key ∧
      t.computed = false ∧
      lastComputed (out.1.trials.take j) = some t.labelsUsed := by
  obtain ⟨h1, h2, h3, h4, h5, h6, h7, devdf, labels, hdev, hbr⟩ :=
    trialStep_ok or criterion key st d bd rc out h
  rcases hbr with ⟨hz, hll, hlt, hlo, htr⟩ | ⟨hz, hlab, hlt, hlo, htr⟩
  · -- zero trial: labels reused, trial recorded as not computed
    have hlc : lastComputed out.1.trials = lastComputed st.trials := by
      rw [htr, lastComputed_append]
      rfl
    refine ⟨by rw [hlo, hlc]; exact hL, ?_⟩
    intro j t hjt hz2
    have hjlt := getElem?_some_lt _ j t hjt
    rw [htr] at hjt hjlt
    rw [List.length_append, List.length_singleton] at hjlt
    by_cases hcase : j < st.trials.length
    · rw [getElem?_append_left_custom _ _ j hcase] at hjt
      obtain ⟨c1, c2, c3, c4, c5⟩ := hG j t hjt hz2
      refine ⟨c1, c2, c3, c4, ?_⟩
      rw [htr, take_append_left_custom _ _ j (Nat.le_of_lt hcase)]
      exact c5
    · have hje : j = st.trials.length := by omega
      subst hje
      rw [getElem?_concat_self] at hjt
      have hteq := Option.some.inj hjt
      subst hteq
      refine ⟨rfl, rfl, rfl, rfl, ?_⟩
      rw [htr, take_append_left_custom _ _ _ (Nat.le_refl _), List.take_length]
      rw [← hL, hll]
  · -- computed trial: labels recomputed and recorded
    have hlc : lastComputed out.1.trials = some labels := by
      rw [htr, lastComputed_append]
      rfl
    refine ⟨by rw [hlo, hlc], ?_⟩
    intro j t hjt hz2
    have hjlt := getElem?_some_lt _ j t hjt
    rw [htr] at hjt hjlt
    rw [List.length_append, List.length_singleton] at hjlt
    by_cases hcase : j < st.trials.length
    · rw [getElem?_append_left_custom _ _ j hcase] at hjt
      obtain ⟨c1, c2, c3, c4, c5⟩ := hG j t hjt hz2
      refine ⟨c1, c2, c3, c4, ?_⟩
      rw [htr, take_append_left_custom _ _ j (Nat.le_of_lt hcase)]
      exact c5
    · have hje : j = st.trials.length := by omega
      subst hje
      rw [getElem?_concat_self] at hjt
      have hteq := Option.some.inj hjt
      subst hteq
      cases hz2

theorem featureStep_labels {M V : Type} [LinearOrder V] (or : Oracles M V)
    (criterion : String) (st : SearchSt M V) (key : String) (st3 : SearchSt M V)
    (h : featureStep or criterion st key = .ok st3)
    (hL : st.labelsLocal = lastComputed st.trials)
    (hG : ∀ j t, st.trials[j]? = some t → t.zero = true →
      t.dfTrainCopy = popKey t.dfTrainBefore t.key ∧
      t.dfDevCopy = popKey t.dfDevBefore t.key ∧
      t.cutoffsCopy = popKey t.cutoffsBefore t.key ∧
      t.computed = false ∧
      lastComputed (st.trials.take j) = some t.labelsUsed) :
    st3.labelsLocal = lastComputed st3.trials ∧
    ∀ j t, st3.trials[j]? = some t → t.zero = true →
      t.dfTrainCopy = popKey t.dfTrainBefore t.key ∧
      t.dfDevCopy = popKey t.dfDevBefore t.key ∧
      t.cutoffsCopy = popKey t.cutoffsBefore t.key ∧
      t.computed = false ∧
      lastComputed (st3.trials.take j) = some t.labelsUsed := by
  obtain ⟨out, hsw, rfl⟩ := featureStep_ok or criterion st key st3 h
  have hout := sweepAux_pres or criterion key
    (fun s => s.labelsLocal = lastComputed s.trials ∧
      ∀ j t, s.trials[j]? = some t → t.zero = true →
        t.dfTrainCopy = popKey t.dfTrainBefore t.key ∧
        t.dfDevCopy = popKey t.dfDevBefore t.key ∧
        t.cutoffsCopy = popKey t.cutoffsBefore t.key ∧
        t.computed = false ∧
        lastComputed (s.trials.take j) = some t.labelsUsed)
    (fun s d2 bd2 rc2 out2 h2 hp =>
      trialStep_labels or criterion key s d2 bd2 rc2 out2 h2 hp.1 hp.2)
    11 _ out hsw ⟨hL, hG⟩
  cases hrc : out.2.2.2 with
  | false => rw [featurePost_false]; exact hout
  | true => rw [featurePost_true]; exact hout

/-- Claim C3: in every successful run, every trial whose feature's current
discard is exactly 0 removes that feature's column from the trial's
training-table snapshot, dev-table snapshot and cutoff-set snapshot, skips
the cutoff and label recomputation (`computed = false`), and its classifier
is fitted on the label vector of the most recent previous trial that did
compute labels (`lastComputed` of the preceding trial trace). -/
theorem claim_C3 {M V : Type} [LinearOrder V] (or : Oracles M V)
    (tc : TrainClassifier) (criterion : String) (stF : SearchSt M V)
    (resF : Option (M × V × DiscardMap))
    (hrun : findBestModelRun or tc criterion = .ok (stF, resF))
    (j : ℕ) (t : TrialInfo) (ht : stF.trials[j]? = some t) (hz : t.zero = true)
    (L : List ℕ) (hL : lastComputed (stF.trials.take j) = some L) :
    t.dfTrainCopy = popKey t.dfTrainBefore t.key ∧
    t.dfDevCopy = popKey t.dfDevBefore t.key ∧
    t.cutoffsCopy = popKey t.cutoffsBefore t.key ∧
    t.computed = false ∧
    t.labelsUsed = L := by
  obtain ⟨hsl, -⟩ := findBestModelRun_ok or tc criterion stF resF hrun
  have hinv := searchLoop_pres or criterion
    (fun s => s.labelsLocal = lastComputed s.trials ∧
      ∀ j2 t2, s.trials[j2]? = some t2 → t2.zero = true →
        t2.dfTrainCopy = popKey t2.dfTrainBefore t2.key ∧
        t2.dfDevCopy = popKey t2.dfDevBefore t2.key ∧
        t2.cutoffsCopy = popKey t2.cutoffsBefore t2.key ∧
        t2.computed = false ∧
        lastComputed (s.trials.take j2) = some t2.labelsUsed)
    (fun s key s3 hfs hp => featureStep_labels or criterion s key s3 hfs hp.1 hp.2)
    _ _ _ hsl ⟨rfl, by intro j2 t2 hjt; simp [initSearchSt] at hjt⟩
  obtain ⟨c1, c2, c3, c4, c5⟩ := hinv.2 j t ht hz
  refine ⟨c1, c2, c3, c4, ?_⟩
  rw [c5] at hL
  exact Option.some.inj hL

theorem round_mono_custom {x y : ℚ} (h : x ≤ y) : round x ≤ round y := by
  rw [round_eq, round_eq]
  exact Int.floor_le_floor (by linarith)

theorem round2_nonneg {q : ℚ} (h : 0 ≤ q) : 0 ≤ round2 q := by
  unfold round2
  have h1 : (0 : ℤ) ≤ round (q * 100) := by
    have h2 := round_mono_custom (x := 0) (y := q * 100) (by linarith)
    simpa using h2
  have h3 : (0 : ℚ) ≤ (round (q * 100) : ℤ) := by exact_mod_cast h1
  exact div_nonneg h3 (by norm_num)

theorem round2_le_one {q : ℚ} (h : q ≤ 1) : round2 q ≤ 1 := by
  unfold round2
  have h1 : round (q * 100) ≤ (100 : ℤ) := by
    have h2 := round_mono_custom (x := q * 100) (y := 100) (by linarith)
    have h3 : round (100 : ℚ) = 100 := by
      rw [round_eq]
      norm_num
    rw [h3] at h2
    exact h2
  rw [div_le_one (by norm_num)]
  exact_mod_cast h1

theorem trialStep_range {M V : Type} [LinearOrder V] (or : Oracles M V)
    (criterion key : String) (st : SearchSt M V) (d bd : ℚ) (rc : Bool)
    (out : SearchSt M V × ℚ × ℚ × Bool)
    (h : trialStep or criterion key st d bd rc = .ok out)
    (hall : ∀ p ∈ st.discards, 0 ≤ p.2 ∧ p.2 ≤ 1)
    (htr : ∀ ds ∈ st.discardsTrace, ∀ p ∈ ds, 0 ≤ p.2 ∧ p.2 ≤ 1)
    (hd0 : 0 ≤ d - 1 / 100) (hd1 : d ≤ 1) :
    (∀ p ∈ out.1.discards, 0 ≤ p.2 ∧ p.2 ≤ 1) ∧
    (∀ ds ∈ out.1.discardsTrace, ∀ p ∈ ds, 0 ≤ p.2 ∧ p.2 ≤ 1) ∧
    out.2.1 = d - 1 / 100 ∧ (out.2.2.1 = bd ∨ out.2.2.1 = round2 d) ∧
    (∀ k2, k2 ≠ key → lookupD out.1.discards k2 0 = lookupD st.discards k2 0) := by
  obtain ⟨h1, h2, h3, h4, h5, h6, h7, -⟩ :=
    trialStep_ok or criterion key st d bd rc out h
  have hnew : ∀ p ∈ setKey st.discards key (round2 (d - 1 / 100)), 0 ≤ p.2 ∧ p.2 ≤ 1 := by
    intro p hp
    rcases mem_setKey st.discards key (round2 (d - 1 / 100)) p hp with heq | hmem
    · subst heq
      exact ⟨round2_nonneg hd0, round2_le_one (by linarith)⟩
    · exact hall p hmem
  refine ⟨by rw [h4]; exact hnew, ?_, h6, h7, ?_⟩
  · intro ds hds
    rw [h5] at hds
    rcases List.mem_append.mp hds with hmem | hmem
    · exact htr ds hmem
    · rw [List.mem_singleton.mp hmem]
      exact hnew
  · intro k2 hk2
    rw [h4, lookupD_setKey_ne st.discards key k2 (round2 (d - 1 / 100)) 0 hk2]

theorem sweepAux_range {M V : Type} [LinearOrder V] (or : Oracles M V)
    (criterion key : String) :
    ∀ (n : ℕ) (st : SearchSt M V) (d bd : ℚ) (rc : Bool)
      (out : SearchSt M V × ℚ × ℚ × Bool),
      sweepAux or criterion key n (st, d, bd, rc) = .ok out →
      (∀ p ∈ st.discards, 0 ≤ p.2 ∧ p.2 ≤ 1) →
      (∀ ds ∈ st.discardsTrace, ∀ p ∈ ds, 0 ≤ p.2 ∧ p.2 ≤ 1) →
      0 ≤ bd → bd ≤ 1 → 0 ≤ d - (n : ℚ) / 100 → d ≤ 1 →
      (∀ p ∈ out.1.discards, 0 ≤ p.2 ∧ p.2 ≤ 1) ∧
      (∀ ds ∈ out.1.discardsTrace, ∀ p ∈ ds, 0 ≤ p.2 ∧ p.2 ≤ 1) ∧
      0 ≤ out.2.2.1 ∧ out.2.2.1 ≤ 1 ∧
      (∀ k2, k2 ≠ key → lookupD out.1.discards k2 0 = lookupD st.discards k2 0) := by
  intro n
  induction n with
  | zero =>
    intro st d bd rc out h hall htr hb0 hb1 hd0 hd1
    unfold sweepAux at h
    injection h with h2
    rw [← h2]
    exact ⟨hall, htr, hb0, hb1, fun k2 _ => rfl⟩
  | succ n ih =>
    intro st d bd rc out h hall htr hb0 hb1 hd0 hd1
    unfold sweepAux at h
    split at h
    · cases h
    · rename_i acc2 hts
      push_cast at hd0
      have hnn : (0 : ℚ) ≤ (n : ℚ) := Nat.cast_nonneg n
      have hd0s : 0 ≤ d - 1 / 100 := by linarith
      obtain ⟨ha2, ht2, hdeq, hbd2, hlk2⟩ :=
        trialStep_range or criterion key st d bd rc acc2 hts hall htr hd0s hd1
      have hb0n : 0 ≤ acc2.2.2.1 := by
        rcases hbd2 with he | he
        · rw [he]; exact hb0
        · rw [he]
          exact round2_nonneg (by linarith)
      have hb1n : acc2.2.2.1 ≤ 1 := by
        rcases hbd2 with he | he
        · rw [he]; exact hb1
        · rw [he]; exact round2_le_one hd1
      have hd0n : 0 ≤ acc2.2.1 - (n : ℚ) / 100 := by
        rw [hdeq]
        linarith
      have hd1n : acc2.2.1 ≤ 1 := by
        rw [hdeq]
        linarith
      obtain ⟨hfa, hft, hfb0, hfb1, hflk⟩ :=
        ih acc2.1 acc2.2.1 acc2.2.2.1 acc2.2.2.2 out h ha2 ht2 hb0n hb1n hd0n hd1n
      refine ⟨hfa, hft, hfb0, hfb1, ?_⟩
      intro k2 hk2
      rw [hflk k2 hk2, hlk2 k2 hk2]

theorem featureStep_range {M V : Type} [LinearOrder V] (or : Oracles M V)
    (criterion : String) (st : SearchSt M V) (key : String) (st3 : SearchSt M V)
    (h : featureStep or criterion st key = .ok st3)
    (hall : ∀ p ∈ st.discards, 0 ≤ p.2 ∧ p.2 ≤ 1)
    (htr : ∀ ds ∈ st.discardsTrace, ∀ p ∈ ds, 0 ≤ p.2 ∧ p.2 ≤ 1)
    (hk0 : 11 / 100 ≤ lookupD st.discards key 0)
    (hk1 : lookupD st.discards key 0 ≤ 1) :
    (∀ p ∈ st3.discards, 0 ≤ p.2 ∧ p.2 ≤ 1) ∧
    (∀ ds ∈ st3.discardsTrace, ∀ p ∈ ds, 0 ≤ p.2 ∧ p.2 ≤ 1) ∧
    (∀ k2, k2 ≠ key → lookupD st3.discards k2 0 = lookupD st.discards k2 0) := by
  obtain ⟨out, hsw, rfl⟩ := featureStep_ok or criterion st key st3 h
  have hstart0 : 0 ≤ lookupD st.discards key 0 := le_trans (by norm_num) hk0
  have h11 : 0 ≤ lookupD st.discards key 0 - ((11 : ℕ) : ℚ) / 100 := by
    push_cast
    linarith
  obtain ⟨ha1, ht1, hb0, hb1, hlk⟩ :=
    sweepAux_range or criterion key 11 st (lookupD st.discards key 0)
      (lookupD st.discards key 0) false out hsw hall htr hstart0 hk1 h11 hk1
  have hnew : ∀ p ∈ setKey out.1.discards key out.2.2.1, 0 ≤ p.2 ∧ p.2 ≤ 1 := by
    intro p hp
    rcases mem_setKey out.1.discards key out.2.2.1 p hp with heq | hmem
    · subst heq
      exact ⟨hb0, hb1⟩
    · exact ha1 p hmem
  have htrace : ∀ ds ∈ out.1.discardsTrace ++ [setKey out.1.discards key out.2.2.1],
      ∀ p ∈ ds, 0 ≤ p.2 ∧ p.2 ≤ 1 := by
    intro ds hds
    rcases List.mem_append.mp hds with hmem | hmem
    · exact ht1 ds hmem
    · rw [List.mem_singleton.mp hmem]
      exact hnew
  have hoffkey : ∀ k2, k2 ≠ key →
      lookupD (setKey out.1.discards key out.2.2.1) k2 0 = lookupD st.discards k2 0 := by
    intro k2 hk2
    rw [lookupD_setKey_ne out.1.discards key k2 out.2.2.1 0 hk2]
    exact hlk k2 hk2
  cases hrc : out.2.2.2 with
  | false =>
    rw [featurePost_false]
    exact ⟨hnew, htrace, hoffkey⟩
  | true =>
    rw [featurePost_true]
    exact ⟨hnew, htrace, hoffkey⟩

theorem searchLoop_range {M V : Type} [LinearOrder V] (or : Oracles M V)
    (criterion : String) (d0 : ℚ) (hd00 : 11 / 100 ≤ d0) (hd01 : d0 ≤ 1) :
    ∀ (ks : List String) (st st2 : SearchSt M V),
      searchLoop or criterion ks st = .ok st2 →
      ks.Nodup →
      (∀ k ∈ ks, lookupD st.discards k 0 = d0) →
      (∀ p ∈ st.discards, 0 ≤ p.2 ∧ p.2 ≤ 1) →
      (∀ ds ∈ st.discardsTrace, ∀ p ∈ ds, 0 ≤ p.2 ∧ p.2 ≤ 1) →
      ∀ ds ∈ st2.discardsTrace, ∀ p ∈ ds, 0 ≤ p.2 ∧ p.2 ≤ 1 := by
  intro ks
  induction ks with
  | nil =>
    intro st st2 h _ _ _ htr
    unfold searchLoop at h
    injection h with h2
    rw [← h2]
    exact htr
  | cons k ks ih =>
    intro st st2 h hnd hks hall htr
    unfold searchLoop at h
    split at h
    · cases h
    · rename_i stm hfs
      have hk0 : lookupD st.discards k 0 = d0 := hks k (List.mem_cons_self k ks)
      obtain ⟨ha1, ht1, hlk⟩ := featureStep_range or criterion st k stm hfs hall htr
        (hd00.trans_eq hk0.symm) (hk0.symm ▸ hd01)
      refine ih stm st2 h (List.Nodup.of_cons hnd) ?_ ha1 ht1
      intro k2 hk2
      have hne : k2 ≠ k := by
        intro he
        subst he
        exact (List.nodup_cons.mp hnd).1 hk2
      rw [hlk k2 hne]
      exact hks k2 (List.mem_cons_of_mem k hk2)

/-- Claim C7, amended: every value held in the discard dictionary
(including every intermediate dictionary recorded by the ghost trace during
the sweeps) stays within [0, 1] when the default discard estimate lies in
[0.11, 1].  (The original bound, default at most 0.10, is refuted below:
at the end of a sweep's last iteration the dictionary then transiently
holds the default minus 0.11, which is negative.) -/
theorem claim_C7_amended {M V : Type} [LinearOrder V] (or : Oracles M V)
    (tc : TrainClassifier) (criterion : String) (stF : SearchSt M V)
    (resF : Option (M × V × DiscardMap))
    (hrun : findBestModelRun or tc criterion = .ok (stF, resF))
    (hnd : (keysOf tc.df_training_data).Nodup)
    (hlo : 11 / 100 ≤ tc.discard_estimate) (hhi : tc.discard_estimate ≤ 1) :
    ∀ ds ∈ stF.discardsTrace, ∀ p ∈ ds, 0 ≤ p.2 ∧ p.2 ≤ 1 := by
  obtain ⟨hsl, -⟩ := findBestModelRun_ok or tc criterion stF resF hrun
  have hmem0 : ∀ p ∈ tc.df_training_data.map (fun q => (q.1, tc.discard_estimate)),
      0 ≤ p.2 ∧ p.2 ≤ 1 := by
    intro p hp
    obtain ⟨q, hq, heq⟩ := List.mem_map.mp hp
    rw [← heq]
    exact ⟨le_trans (by norm_num) hlo, hhi⟩
  refine searchLoop_range or criterion tc.discard_estimate hlo hhi _ _ _ hsl ?_ ?_ hmem0 ?_
  · have he : keysOf (initSearchSt M V tc).discards = keysOf tc.df_training_data :=
      keysOf_map_pair tc.df_training_data (fun _ => tc.discard_estimate)
    rw [he]
    exact hnd
  · intro k hk
    have he : keysOf (initSearchSt M V tc).discards = keysOf tc.df_training_data :=
      keysOf_map_pair tc.df_training_data (fun _ => tc.discard_estimate)
    refine lookupD_map_const tc.df_training_data tc.discard_estimate k 0 ?_
    rw [← he]
    exact hk
  · intro ds hds
    have he : (initSearchSt M V tc).discardsTrace =
        [tc.df_training_data.map (fun q => (q.1, tc.discard_estimate))] := rfl
    rw [he] at hds
    rw [List.mem_singleton.mp hds]
    exact hmem0

/-- Claim C7 counterexample: with the default discard estimate 0.1 (which
satisfies the claim's premise, at most 0.10), the discard dictionary
transiently holds the value -0.01 at the end of the last iteration of a
sweep (assigned by lines 200-201 inside the trial loop), violating [0, 1]. -/
theorem claim_C7_counterexample :
    (tcAB (1 / 10)).discard_estimate ≤ 1 / 10 ∧
    ((runStateD runStd).discardsTrace.any
      (fun ds => ds.any (fun p => decide (p.2 < 0)))) = true := by
  exact ⟨by norm_num [tcAB], by with_unfolding_all decide⟩

/-- Claim C7 witness: at discard estimate 0.11 the hypotheses hold, and the
amended bound applies to the entry of A in the final trace snapshot. -/
theorem claim_C7_witness :
    (keysOf (tcAB (11 / 100)).df_training_data).Nodup ∧
    (0 ≤ (("A", (11 : ℚ) / 100) : String × ℚ).2 ∧
      (("A", (11 : ℚ) / 100) : String × ℚ).2 ≤ 1) := by
  refine ⟨by with_unfolding_all decide, ?_⟩
  have h := claim_C7_amended constOracles (tcAB (11 / 100)) "roc_auc"
    (runStateD runElevent) (runRes runElevent) (by with_unfolding_all rfl)
    (by with_unfolding_all decide) (by norm_num [tcAB]) (by norm_num [tcAB])
  exact h [("A", 11 / 100), ("B", 11 / 100)] (by with_unfolding_all decide)
    ("A", 11 / 100) (by with_unfolding_all decide)

/-- Claim C3 witness: in the concrete run with discard estimate 0.1, trial
10 (the last trial of feature A's sweep, where the discard has reached 0)
pops A from all three snapshots, skips recomputation, and reuses the label
vector [1] computed by trial 9. -/
theorem claim_C3_witness :
    ((runStateD runStd).trials.getD 10 trialDefault).dfTrainCopy =
      popKey ((runStateD runStd).trials.getD 10 trialDefault).dfTrainBefore
        ((runStateD runStd).trials.getD 10 trialDefault).key ∧
    ((runStateD runStd).trials.getD 10 trialDefault).dfDevCopy =
      popKey ((runStateD runStd).trials.getD 10 trialDefault).dfDevBefore
        ((runStateD runStd).trials.getD 10 trialDefault).key ∧
    ((runStateD runStd).trials.getD 10 trialDefault).cutoffsCopy =
      popKey ((runStateD runStd).trials.getD 10 trialDefault).cutoffsBefore
        ((runStateD runStd).trials.getD 10 trialDefault).key ∧
    ((runStateD runStd).trials.getD 10 trialDefault).computed = false ∧
    ((runStateD runStd).trials.getD 10 trialDefault).labelsUsed = [1] :=
  claim_C3 constOracles (tcAB (1 / 10)) "roc_auc" (runStateD runStd) (runRes runStd)
    (by with_unfolding_all rfl) 10 ((runStateD runStd).trials.getD 10 trialDefault)
    (by with_unfolding_all decide) (by with_unfolding_all decide) [1]
    (by with_unfolding_all decide)
